import Mathlib

/-!
# lib-lwip `init.c`: device attachment and IPv4 configuration resolution

A shallow embedding of `liblwip_init` (src/init.c) with
`CONFIG_LWIP_UKNETDEV`, `CONFIG_LWIP_AUTOIFACE`, `LWIP_IPV4`, `LWIP_DNS` and
`LWIP_DHCP` enabled.

* C strings are lists of characters (the bytes before the terminating NUL).
* `ip4_addr_t` values are the stored 32-bit words, as natural numbers.
* A pointer argument that is either `NULL` or the address of a local that has
  just been written (`ip4_arg`, `mask4_arg`, `gw4_arg`, `hostname_arg`) is an
  `Option` holding the pointee.
* The functions of lwIP and libc that `init.c` calls are fields of `Lib`.
* The calls made into the stack are collected, in order, as a list of `Call`.
* Log output (`uk_pr_*`) is not modelled, nor are the reads its arguments
  make.
* The one store the C code can make outside an object, the terminator store
  into `str_ipaddr`, ends the model with `none`: the behaviour of the program
  is undefined from that store on.
-/

namespace LwipInit

/-- A C string: the characters before the terminating NUL. -/
abbrev CStr := List Char

/-- The lwIP and libc entry points and constants used by `liblwip_init`; none
of them is defined in `init.c`.

* `ip4addr_aton s` is `some v` when `ip4addr_aton(s, &a)` returns 1 and stores
  the word `v` in `a`, and `none` when it returns anything else;
* `strtol s` is the value of `strtol(s, NULL, 10)`;
* `lwip_htonl` converts a host-order word to network order;
* `DNS_MAX_SERVERS` is the size of the DNS server table. -/
structure Lib where
  ip4addr_aton : CStr → Option Nat
  strtol : CStr → Int
  lwip_htonl : Nat → Nat
  DNS_MAX_SERVERS : Nat

/-- Modelled from the spec: the device-info keys of section 6 (`IPV4_CIDR`,
`IPV4_ADDR`, `IPV4_MASK`, `IPV4_GW`, `IPV4_HOSTNAME`, `IPV4_DNS0`,
`IPV4_DNS1`), "string-valued, may be absent". A field is what
`uk_netdev_einfo_get(dev, UK_NETDEV_IPV4_…)` returns, `none` for `NULL`. -/
structure Einfo where
  cidr : Option CStr := none
  addr : Option CStr := none
  mask : Option CStr := none
  gw : Option CStr := none
  hostname : Option CStr := none
  dns0 : Option CStr := none
  dns1 : Option CStr := none

/-- The arguments handed to `uknetdev_addif`: `ip4_arg`, `mask4_arg`,
`gw4_arg`, `hostname_arg`, each `none` for `NULL`. -/
structure ResolvedIPv4Config where
  ip4_arg : Option Nat
  mask4_arg : Option Nat
  gw4_arg : Option Nat
  hostname_arg : Option CStr
deriving DecidableEq, Repr

/-- `strchr(s, c)` as the offset of the first occurrence of `c`, `none` for
`NULL`. -/
def strchr : CStr → Char → Option Nat
  | [], _ => none
  | x :: xs, c => if x = c then some 0 else (strchr xs c).map (· + 1)

/-- `ARRAY_SIZE(str_ipaddr)` for `char str_ipaddr[16]`. -/
def ARRAY_SIZE_str_ipaddr : Nat := 16

/-- `IP_CLASSC_NET` of lwIP, the class-C network mask 255.255.255.0 in host
order. -/
def IP_CLASSC_NET : Nat := 0xffffff00

/-- The host-order mask of the CIDR branch,
`~(__u32)((1LL << (32 - maskbits)) - 1)`, for `0 ≤ maskbits ≤ 32`: the shift
is done in `long long`, the cast reduces modulo `2^32`, and `~` complements
the 32-bit word. -/
def cidr_mask (maskbits : Int) : Nat :=
  let shifted : Int := (1 : Int) * 2 ^ (32 - maskbits).toNat - 1
  let cast : Nat := (shifted % 2 ^ 32).toNat
  (2 ^ 32 - 1 - cast) % 2 ^ 32

/-- The indices of `str_ipaddr` stored to by the CIDR branch (lines 221-234):
none when the branch leaves for `ipv4_legacy` before the copy, else the
`strlen_ipaddr` bytes written by `strncpy` followed by the terminator store
`str_ipaddr[strlen_ipaddr] = 0`. -/
def str_ipaddr_stores (strcfg : CStr) : List Nat :=
  match strchr strcfg '/' with
  | none => []
  | some strlen_ipaddr =>
    if strlen_ipaddr > ARRAY_SIZE_str_ipaddr then []
    else List.range strlen_ipaddr ++ [strlen_ipaddr]

/-- How the CIDR branch (lines 215-259) ends. -/
inductive CidrExit where
  /-- The branch ran `goto ipv4_legacy`. -/
  | ipv4_legacy
  /-- The branch ran `goto ipv4_gw` with `ip4` and `mask4` written. -/
  | ipv4_gw (ip4 mask4 : Nat)
  /-- The terminator store `str_ipaddr[strlen_ipaddr] = 0` fell outside the
  array: the behaviour of the program is undefined from here on. -/
  | out_of_bounds
deriving DecidableEq, Repr

/-- The CIDR branch of `liblwip_init` (lines 215-259) on a present CIDR
string. -/
def cidr_branch (L : Lib) (strcfg : CStr) : CidrExit :=
  match strchr strcfg '/' with
  | none => .ipv4_legacy
  | some strlen_ipaddr =>
    if strlen_ipaddr > ARRAY_SIZE_str_ipaddr then .ipv4_legacy
    else if ARRAY_SIZE_str_ipaddr ≤ strlen_ipaddr then .out_of_bounds
    else
      let str_ipaddr := strcfg.take strlen_ipaddr
      let str_maskbits := strcfg.drop (strlen_ipaddr + 1)
      match L.ip4addr_aton str_ipaddr with
      | none => .ipv4_legacy
      | some ip4 =>
        let maskbits := L.strtol str_maskbits
        if maskbits < 0 ∨ maskbits > 32 then .ipv4_legacy
        else .ipv4_gw ip4 (L.lwip_htonl (cidr_mask maskbits))

/-- From label `no_conf` (lines 299-306): the hostname key is read and the
arguments of `uknetdev_addif` are complete. -/
def no_conf (info : Einfo) (ip4_arg mask4_arg gw4_arg : Option Nat) :
    ResolvedIPv4Config :=
  { ip4_arg := ip4_arg, mask4_arg := mask4_arg, gw4_arg := gw4_arg,
    hostname_arg := info.hostname }

/-- From label `ipv4_gw` (lines 287-297). -/
def ipv4_gw (L : Lib) (info : Einfo) (ip4_arg mask4_arg : Option Nat) :
    ResolvedIPv4Config :=
  match info.gw with
  | some strcfg =>
    match L.ip4addr_aton strcfg with
    | none => no_conf info ip4_arg mask4_arg none
    | some gw4 => no_conf info ip4_arg mask4_arg (some gw4)
  | none => no_conf info ip4_arg mask4_arg none

/-- From label `ipv4_legacy` (lines 261-285). -/
def ipv4_legacy (L : Lib) (info : Einfo) : ResolvedIPv4Config :=
  match info.addr with
  | none => no_conf info none none none
  | some strcfg =>
    match L.ip4addr_aton strcfg with
    | none => no_conf info none none none
    | some ip4 =>
      match info.mask with
      | some strmask =>
        match L.ip4addr_aton strmask with
        | none => no_conf info (some ip4) none none
        | some mask4 => ipv4_gw L info (some ip4) (some mask4)
      | none => ipv4_gw L info (some ip4) (some (L.lwip_htonl IP_CLASSC_NET))

/-- The IPv4 configuration resolution of one device (lines 207-304): the
arguments `uknetdev_addif` is called with, or `none` when the CIDR branch
stored outside `str_ipaddr`. -/
def resolve (L : Lib) (info : Einfo) : Option ResolvedIPv4Config :=
  match info.cidr with
  | some strcfg =>
    match cidr_branch L strcfg with
    | .out_of_bounds => none
    | .ipv4_legacy => some (ipv4_legacy L info)
    | .ipv4_gw ip4 mask4 => some (ipv4_gw L info (some ip4) (some mask4))
  | none => some (ipv4_legacy L info)

/-- Modelled from the spec: the lifecycle states of a device (section 3,
"Unprobed, Unconfigured, Configured, Error, …"); the enumeration is declared
in `uk/netdev_core.h`, and `init.c` tests only for `UK_NETDEV_UNCONFIGURED`
and `UK_NETDEV_UNPROBED`. -/
inductive uk_netdev_state where
  | UK_NETDEV_INVALID
  | UK_NETDEV_UNPROBED
  | UK_NETDEV_UNCONFIGURED
  | UK_NETDEV_CONFIGURED
  | UK_NETDEV_RUNNING
deriving DecidableEq, Repr

/-- A network device as `liblwip_init` sees it, together with the outcomes of
the two calls whose results the loop branches on:

* `state` is what `uk_netdev_state_get(dev)` returns on entry to the loop body;
* `probe_ret` is what `uk_netdev_probe(dev)` returns; a non-negative result
  leaves the device in `UK_NETDEV_UNCONFIGURED`, which is what the
  `UK_ASSERT` of line 202 states;
* `einfo` is what `uk_netdev_einfo_get(dev, ·)` returns;
* `addif cfg` is what `uknetdev_addif(dev, …)` returns for the arguments
  `cfg`, an interface handle or `none` for `NULL`. -/
structure uk_netdev where
  state : uk_netdev_state
  probe_ret : Int
  einfo : Einfo
  addif : ResolvedIPv4Config → Option Nat

/-- A call made by `liblwip_init` into the device layer or the stack, with
the values of its argument expressions (for `dns_setserver`, the value of
`nb_dns4++` and the parsed address). -/
inductive Call where
  | uk_netdev_probe (devid : Nat)
  | uknetdev_addif (devid : Nat) (cfg : ResolvedIPv4Config)
  | dns_setserver (numdns : Nat) (dns4 : Nat)
  | netif_set_default (nf : Nat)
  | netif_set_up (nf : Nat)
  | dhcp_start (nf : Nat)
deriving DecidableEq, Repr

/-- The locals of `liblwip_init` that live across loop iterations. -/
structure LoopState where
  is_first_nf : Bool
  nb_dns4 : Nat
deriving DecidableEq, Repr

/-- One of the two DNS blocks (lines 371-385 with key `DNS0`, lines 389-403
with key `DNS1`): the new `nb_dns4` and the call made, if any. A parse failure
jumps to the label right after the block (`dns_secondary`, `dns_done`). -/
def dns_block (L : Lib) (nb_dns4 : Nat) (strcfg : Option CStr) :
    Nat × List Call :=
  if nb_dns4 < L.DNS_MAX_SERVERS then
    match strcfg with
    | some s =>
      match L.ip4addr_aton s with
      | none => (nb_dns4, [])
      | some dns4 => (nb_dns4 + 1, [Call.dns_setserver nb_dns4 dns4])
    | none => (nb_dns4, [])
  else (nb_dns4, [])

/-- The loop body from line 207 on, for a device that passed the state and
probe checks: resolution, `uknetdev_addif`, DNS, default interface,
`netif_set_up`, DHCP. `none` when the resolution stored outside
`str_ipaddr`. -/
def attach (L : Lib) (devid : Nat) (dev : uk_netdev) (s : LoopState) :
    Option (LoopState × List Call) :=
  match resolve L dev.einfo with
  | none => none
  | some cfg =>
    match dev.addif cfg with
    | none => some (s, [Call.uknetdev_addif devid cfg])
    | some nf =>
      let primary := dns_block L s.nb_dns4 dev.einfo.dns0
      let secondary := dns_block L primary.1 dev.einfo.dns1
      let set_default :=
        if s.is_first_nf then [Call.netif_set_default nf] else []
      let dhcp :=
        if cfg.ip4_arg.isNone then [Call.dhcp_start nf] else []
      some ({ is_first_nf := if s.is_first_nf then false else s.is_first_nf,
              nb_dns4 := secondary.1 },
            [Call.uknetdev_addif devid cfg] ++ primary.2 ++ secondary.2
              ++ set_default ++ [Call.netif_set_up nf] ++ dhcp)

/-- One iteration of the device loop (lines 182-423) for the slot
`uk_netdev_get(devid)`. -/
def loop_body (L : Lib) (devid : Nat) (slot : Option uk_netdev)
    (s : LoopState) : Option (LoopState × List Call) :=
  match slot with
  | none => some (s, [])
  | some dev =>
    if dev.state ≠ .UK_NETDEV_UNCONFIGURED ∧ dev.state ≠ .UK_NETDEV_UNPROBED
    then some (s, [])
    else if dev.state = .UK_NETDEV_UNPROBED then
      if dev.probe_ret < 0 then some (s, [Call.uk_netdev_probe devid])
      else
        (attach L devid dev s).map
          (fun r => (r.1, Call.uk_netdev_probe devid :: r.2))
    else attach L devid dev s

/-- The device loop `for (devid = …; devid < uk_netdev_count(); ++devid)` over
the slots not yet visited: the calls made, in order. -/
def device_loop (L : Lib) :
    Nat → List (Option uk_netdev) → LoopState → Option (List Call)
  | _, [], _ => some []
  | devid, slot :: rest, s =>
    match loop_body L devid slot s with
    | none => none
    | some r => (device_loop L (devid + 1) rest r.1).map (fun cs => r.2 ++ cs)

/-- The calls of one run of `liblwip_init` on the device table `devs` (slot
`devid` is `uk_netdev_get(devid)`), with `is_first_nf = 1` and `nb_dns4 = 0`
on entry; `none` when a resolution stored outside `str_ipaddr`. -/
def liblwip_init (L : Lib) (devs : List (Option uk_netdev)) :
    Option (List Call) :=
  device_loop L 0 devs { is_first_nf := true, nb_dns4 := 0 }

/-- The arguments of the `netif_set_default` calls of a trace, in order. -/
def set_default_args : List Call → List Nat
  | [] => []
  | Call.netif_set_default nf :: cs => nf :: set_default_args cs
  | _ :: cs => set_default_args cs

/-- The slot indices of the `dns_setserver` calls of a trace, in order. -/
def dns_slots : List Call → List Nat
  | [] => []
  | Call.dns_setserver numdns _ :: cs => numdns :: dns_slots cs
  | _ :: cs => dns_slots cs

/-- The `dns_setserver` calls of a trace as (slot, address), in order. -/
def dns_calls : List Call → List (Nat × Nat)
  | [] => []
  | Call.dns_setserver numdns dns4 :: cs => (numdns, dns4) :: dns_calls cs
  | _ :: cs => dns_calls cs

/-- The arguments of the `dhcp_start` calls of a trace, in order. -/
def dhcp_start_args : List Call → List Nat
  | [] => []
  | Call.dhcp_start nf :: cs => nf :: dhcp_start_args cs
  | _ :: cs => dhcp_start_args cs

/-- The interface of a "successfully attached" device, in the words of the
default-interface claim: the slot is non-null, the state is Unconfigured, or
it is Unprobed and the probe returns a non-negative result, and
`uknetdev_addif` returns a non-null interface (on the resolved arguments). -/
def successfully_attached (L : Lib) (slot : Option uk_netdev) : Option Nat :=
  match slot with
  | none => none
  | some dev =>
    if dev.state = .UK_NETDEV_UNCONFIGURED
        ∨ (dev.state = .UK_NETDEV_UNPROBED ∧ 0 ≤ dev.probe_ret) then
      match resolve L dev.einfo with
      | none => none
      | some cfg => dev.addif cfg
    else none

/-- The interface of the first successfully attached device in enumeration
order, if there is one. -/
def first_attached (L : Lib) : List (Option uk_netdev) → Option Nat
  | [] => none
  | slot :: rest =>
    match successfully_attached L slot with
    | some nf => some nf
    | none => first_attached L rest

/-- No CIDR key of the table has its first separator at offset 16, the one
length at which the terminator store leaves `str_ipaddr`. -/
def in_bounds (devs : List (Option uk_netdev)) : Prop :=
  ∀ dev, some dev ∈ devs → ∀ strcfg, dev.einfo.cidr = some strcfg →
    strchr strcfg '/' ≠ some ARRAY_SIZE_str_ipaddr

/-! ### A concrete library, for evaluating the embedding on examples -/

/-- The C-locale `isspace`: space, `\t`, `\n`, `\v`, `\f`, `\r`. -/
def isspace (c : Char) : Bool :=
  c.toNat = 32 ∨ (9 ≤ c.toNat ∧ c.toNat ≤ 13)

/-- The value of a decimal digit character. -/
def digit_value (c : Char) : Nat := c.toNat - 48

/-- The value of the longest prefix of decimal digits, continuing from
`acc`. -/
def leading_decimal : CStr → Nat → Nat
  | [], acc => acc
  | c :: cs, acc =>
    if c.isDigit then leading_decimal cs (acc * 10 + digit_value c) else acc

/-- `LONG_MAX` for a 64-bit `long`. -/
def LONG_MAX : Int := 2 ^ 63 - 1

/-- `LONG_MIN` for a 64-bit `long`. -/
def LONG_MIN : Int := -(2 ^ 63)

/-- The sign and digit part of `strtol`, after the leading white space. -/
def strtol_signed : CStr → Int
  | '-' :: cs => max (-(leading_decimal cs 0 : Int)) LONG_MIN
  | '+' :: cs => min (leading_decimal cs 0 : Int) LONG_MAX
  | cs => min (leading_decimal cs 0 : Int) LONG_MAX

/-- The libc `strtol(s, NULL, 10)` of ISO C (7.22.1.4): leading white space is
skipped, an optional sign is taken, then the longest run of decimal digits; the
value is 0 when there is no digit, characters after the digits are ignored,
and the result saturates at `LONG_MIN` and `LONG_MAX`. -/
def libc_strtol (s : CStr) : Int :=
  strtol_signed (s.dropWhile isspace)

/-- The fields of a string between the dots. -/
def split_dots : CStr → List CStr
  | [] => [[]]
  | c :: cs =>
    if c = '.' then [] :: split_dots cs
    else
      match split_dots cs with
      | [] => [[c]]
      | f :: fs => (c :: f) :: fs

/-- One field of a dotted quad: one to three decimal digits with a value of at
most 255. -/
def octet (f : CStr) : Option Nat :=
  if f ≠ [] ∧ f.length ≤ 3 ∧ f.all Char.isDigit ∧ leading_decimal f 0 ≤ 255
  then some (leading_decimal f 0) else none

/-- Modelled from the spec: "standard dotted-quad parsing" (section 4.1) of
`a.b.c.d`, four decimal fields of at most 255 each; the host-order word
`a·2^24 + b·2^16 + c·2^8 + d`, or `none` for any other text.  lwIP's
`ip4addr_aton` is not part of `init.c`. -/
def dotted_quad_value (s : CStr) : Option Nat :=
  match split_dots s with
  | [a, b, c, d] =>
    match octet a, octet b, octet c, octet d with
    | some a, some b, some c, some d =>
      some (a * 2 ^ 24 + b * 2 ^ 16 + c * 2 ^ 8 + d)
    | _, _, _, _ => none
  | _ => none

/-- The byte swap of a 32-bit word: `lwip_htonl` on a little-endian target. -/
def bswap32 (v : Nat) : Nat :=
  (v % 256) * 2 ^ 24 + (v / 2 ^ 8 % 256) * 2 ^ 16 + (v / 2 ^ 16 % 256) * 2 ^ 8
    + v / 2 ^ 24 % 256

/-- A concrete library: the dotted-quad parser storing its result in network
order as `ip4addr_aton` does, the libc `strtol`, a little-endian `lwip_htonl`
and a DNS table of two servers. -/
def sample_lib : Lib :=
  { ip4addr_aton := fun s => (dotted_quad_value s).map bswap32,
    strtol := libc_strtol,
    lwip_htonl := bswap32,
    DNS_MAX_SERVERS := 2 }

/-- The decimal text of a number. -/
def decimal (n : Nat) : CStr := Nat.toDigits 10 n

/-- The dotted-quad text of a host-order 32-bit word. -/
def dotted_quad (v : Nat) : CStr :=
  decimal (v / 2 ^ 24 % 256) ++ '.' :: decimal (v / 2 ^ 16 % 256)
    ++ '.' :: decimal (v / 2 ^ 8 % 256) ++ '.' :: decimal (v % 256)

/-- The value with the high-order `p` bits of a 32-bit word set and the low
`32 - p` bits clear, as the CIDR claim writes it. -/
def netmask_of_bits (p : Nat) : Nat := 2 ^ 32 - 2 ^ (32 - p)

/-- A device in state Configured, which the loop skips. -/
def sample_configured : uk_netdev :=
  { state := uk_netdev_state.UK_NETDEV_CONFIGURED, probe_ret := 0,
    einfo := { addr := some "10.0.0.5".toList },
    addif := fun _ => some 1 }

/-- An unprobed device whose probe fails with -1. -/
def sample_probe_fails : uk_netdev :=
  { state := uk_netdev_state.UK_NETDEV_UNPROBED, probe_ret := -1,
    einfo := { addr := some "10.0.0.6".toList },
    addif := fun _ => some 2 }

/-- An unprobed device that probes successfully, with CIDR key
`192.168.1.10/24`, gateway `192.168.1.1` and two DNS servers, registered as
interface 3. -/
def sample_static : uk_netdev :=
  { state := uk_netdev_state.UK_NETDEV_UNPROBED, probe_ret := 0,
    einfo := { cidr := some "192.168.1.10/24".toList,
               gw := some "192.168.1.1".toList,
               dns0 := some "8.8.8.8".toList,
               dns1 := some "8.8.4.4".toList },
    addif := fun _ => some 3 }

/-- An unconfigured device with no address key, a malformed primary DNS
server and a valid secondary one, registered as interface 4. -/
def sample_dhcp : uk_netdev :=
  { state := uk_netdev_state.UK_NETDEV_UNCONFIGURED, probe_ret := 0,
    einfo := { mask := some "255.255.0.0".toList,
               gw := some "10.0.0.1".toList,
               hostname := some "unikraft".toList,
               dns0 := some "8.8.8.x".toList,
               dns1 := some "8.8.4.4".toList },
    addif := fun _ => some 4 }

/-! ### Lemmas on the configuration resolution -/

theorem strchr_append_sep (A S : CStr) (c : Char) (h : c ∉ A) :
    strchr (A ++ c :: S) c = some A.length := by
  induction A with
  | nil => simp [strchr]
  | cons x xs ih =>
    have hx : x ≠ c := fun e => h (by simp [e])
    have hxs : c ∉ xs := fun e => h (by simp [e])
    simp [strchr, hx, ih hxs]

theorem strchr_lt_length (s : CStr) (c : Char) (n : Nat)
    (h : strchr s c = some n) : n < s.length := by
  induction s generalizing n with
  | nil => simp [strchr] at h
  | cons x xs ih =>
    by_cases hx : x = c
    · simp [strchr, hx] at h
      subst h
      simp
    · simp [strchr, hx] at h
      obtain ⟨m, hm, rfl⟩ := h
      have := ih m hm
      simp
      omega

theorem cidr_mask_eq (p : Nat) (hp : p ≤ 32) :
    cidr_mask (p : Int) = netmask_of_bits p := by
  interval_cases p <;> rfl

theorem cidr_branch_split (L : Lib) (A S : CStr) (hlen : A.length ≤ 15)
    (hsep : '/' ∉ A) :
    cidr_branch L (A ++ '/' :: S) =
      match L.ip4addr_aton A with
      | none => CidrExit.ipv4_legacy
      | some ip4 =>
        if L.strtol S < 0 ∨ L.strtol S > 32 then CidrExit.ipv4_legacy
        else CidrExit.ipv4_gw ip4 (L.lwip_htonl (cidr_mask (L.strtol S))) := by
  have h1 : ¬ A.length > ARRAY_SIZE_str_ipaddr := by
    simp [ARRAY_SIZE_str_ipaddr]; omega
  have h2 : ¬ ARRAY_SIZE_str_ipaddr ≤ A.length := by
    simp [ARRAY_SIZE_str_ipaddr]; omega
  have h3 : List.drop (A.length + 1) (A ++ '/' :: S) = S := by
    rw [List.drop_append_eq_append_drop]
    simp
  simp only [cidr_branch, strchr_append_sep A S '/' hsep, h1, h2, if_false,
    List.take_left, h3]

theorem ipv4_gw_ip4_arg (L : Lib) (info : Einfo) (a m : Option Nat) :
    (ipv4_gw L info a m).ip4_arg = a := by
  unfold ipv4_gw
  split
  · split <;> rfl
  · rfl

theorem ipv4_gw_mask4_arg (L : Lib) (info : Einfo) (a m : Option Nat) :
    (ipv4_gw L info a m).mask4_arg = m := by
  unfold ipv4_gw
  split
  · split <;> rfl
  · rfl

theorem resolve_defined (L : Lib) (info : Einfo)
    (h : ∀ strcfg, info.cidr = some strcfg →
      strchr strcfg '/' ≠ some ARRAY_SIZE_str_ipaddr) :
    ∃ cfg, resolve L info = some cfg := by
  unfold resolve
  cases hc : info.cidr with
  | none => exact ⟨_, rfl⟩
  | some strcfg =>
    have hne := h strcfg hc
    simp only
    cases hb : cidr_branch L strcfg with
    | ipv4_legacy => exact ⟨_, rfl⟩
    | ipv4_gw ip4 mask4 => exact ⟨_, rfl⟩
    | out_of_bounds =>
      exfalso
      unfold cidr_branch at hb
      cases hs : strchr strcfg '/' with
      | none => simp [hs] at hb
      | some n =>
        simp only [hs] at hb
        by_cases h1 : n > ARRAY_SIZE_str_ipaddr
        · simp [h1] at hb
        · by_cases h2 : ARRAY_SIZE_str_ipaddr ≤ n
          · have : n = ARRAY_SIZE_str_ipaddr := by omega
            exact hne (by rw [hs, this])
          · simp only [h1, h2, if_false] at hb
            split at hb
            · cases hb
            · split at hb <;> cases hb

/-- The stores into `str_ipaddr` never go further than index 16: an overrun is
by one byte. -/
theorem str_ipaddr_stores_le (strcfg : CStr) :
    ∀ i ∈ str_ipaddr_stores strcfg, i ≤ ARRAY_SIZE_str_ipaddr := by
  intro i hi
  unfold str_ipaddr_stores at hi
  cases hs : strchr strcfg '/' with
  | none => simp [hs] at hi
  | some n =>
    simp only [hs] at hi
    by_cases h : n > ARRAY_SIZE_str_ipaddr
    · simp [h] at hi
    · simp only [h, if_false, List.mem_append, List.mem_range,
        List.mem_singleton] at hi
      omega

/-- The stores into `str_ipaddr` stay inside the array unless the first
separator is at offset 16. -/
theorem str_ipaddr_stores_lt (strcfg : CStr)
    (h16 : strchr strcfg '/' ≠ some ARRAY_SIZE_str_ipaddr) :
    ∀ i ∈ str_ipaddr_stores strcfg, i < ARRAY_SIZE_str_ipaddr := by
  intro i hi
  unfold str_ipaddr_stores at hi
  cases hs : strchr strcfg '/' with
  | none => simp [hs] at hi
  | some n =>
    simp only [hs] at hi
    have hne : n ≠ ARRAY_SIZE_str_ipaddr := fun e => h16 (by rw [hs, e])
    by_cases h : n > ARRAY_SIZE_str_ipaddr
    · simp [h] at hi
    · simp only [h, if_false, List.mem_append, List.mem_range,
        List.mem_singleton] at hi
      omega

/-- A first separator at offset 16 makes the terminator store hit index 16,
and the CIDR branch ends out of bounds whatever the library does. -/
theorem str_ipaddr_overrun_at_sixteen (L : Lib) (strcfg : CStr)
    (h16 : strchr strcfg '/' = some ARRAY_SIZE_str_ipaddr) :
    ARRAY_SIZE_str_ipaddr ∈ str_ipaddr_stores strcfg
      ∧ cidr_branch L strcfg = CidrExit.out_of_bounds := by
  constructor
  · simp [str_ipaddr_stores, h16]
  · simp [cidr_branch, h16]

/-- The libc `strtol` reads the decimal text of every prefix length as that
length. -/
theorem sample_lib_reads_decimal (p : Nat) (hp : p ≤ 32) :
    sample_lib.strtol (decimal p) = (p : Int) := by
  interval_cases p <;> decide

/-- The dotted-quad parser reads the dotted-quad text of every netmask as
that netmask. -/
theorem sample_lib_reads_netmask (p : Nat) (hp : p ≤ 32) :
    sample_lib.ip4addr_aton (dotted_quad (netmask_of_bits p))
      = some (sample_lib.lwip_htonl (netmask_of_bits p)) := by
  interval_cases p <;> decide

/-! ### The claims on the configuration resolution -/

/-- C1: for an address string `A` of at most 15 characters without a
separator that the parser accepts, and a prefix `p ≤ 32` written in decimal,
the CIDR key `A/p` resolves to the address parsed from `A` and to the netmask
`2^32 - 2^(32-p)` in network byte order, and the whole resolved configuration
equals the one of the same device with no CIDR key, address key `A` and mask
key the dotted-quad text of that netmask. The two facts used of the library
are that `strtol` reads the decimal text of `p` as `p` and that the parser
reads the dotted-quad text of the netmask as that netmask. -/
theorem cidr_form_agrees_with_legacy_form (L : Lib) (info : Einfo) (A : CStr)
    (p ip4 : Nat) (hlen : A.length ≤ 15) (hsep : '/' ∉ A)
    (hA : L.ip4addr_aton A = some ip4) (hp : p ≤ 32)
    (hstrtol : L.strtol (decimal p) = (p : Int))
    (hmask : L.ip4addr_aton (dotted_quad (netmask_of_bits p))
      = some (L.lwip_htonl (netmask_of_bits p))) :
    ∃ cfg,
      resolve L { info with cidr := some (A ++ '/' :: decimal p) } = some cfg
      ∧ cfg.ip4_arg = some ip4
      ∧ cfg.mask4_arg = some (L.lwip_htonl (2 ^ 32 - 2 ^ (32 - p)))
      ∧ resolve L { info with
          cidr := none, addr := some A,
          mask := some (dotted_quad (2 ^ 32 - 2 ^ (32 - p))) } = some cfg := by
  have hr : ¬ ((p : Int) < 0 ∨ (p : Int) > 32) := by omega
  refine ⟨ipv4_gw L info (some ip4) (some (L.lwip_htonl (netmask_of_bits p))),
    ?_, ipv4_gw_ip4_arg _ _ _ _, ipv4_gw_mask4_arg _ _ _ _, ?_⟩
  · simp only [resolve, cidr_branch_split L A (decimal p) hlen hsep, hA,
      hstrtol, hr, if_false, cidr_mask_eq p hp]
    rfl
  · have hm := hmask
    unfold netmask_of_bits at hm
    simp only [resolve, ipv4_legacy, hA, hm]
    rfl

/-- C1 at the CIDR key `10.0.0.5/24` against address `10.0.0.5` with mask
`255.255.255.0`, on a device that also has a gateway and a hostname. -/
theorem cidr_form_agrees_with_legacy_form_witness :
    sample_lib.ip4addr_aton "10.0.0.5".toList = some 83886090
    ∧ dotted_quad (2 ^ 32 - 2 ^ (32 - 24)) = "255.255.255.0".toList
    ∧ ∃ cfg,
      resolve sample_lib
        { ({ gw := some "10.0.0.1".toList,
             hostname := some "unikraft".toList } : Einfo) with
          cidr := some ("10.0.0.5".toList ++ '/' :: decimal 24) } = some cfg
      ∧ cfg.ip4_arg = some 83886090
      ∧ cfg.mask4_arg = some (sample_lib.lwip_htonl (2 ^ 32 - 2 ^ (32 - 24)))
      ∧ resolve sample_lib
        { ({ gw := some "10.0.0.1".toList,
             hostname := some "unikraft".toList } : Einfo) with
          cidr := none, addr := some "10.0.0.5".toList,
          mask := some (dotted_quad (2 ^ 32 - 2 ^ (32 - 24))) } = some cfg :=
  ⟨by decide, by decide,
    cidr_form_agrees_with_legacy_form sample_lib _ "10.0.0.5".toList 24
      83886090 (by decide) (by decide) (by decide) (by decide) (by decide)
      (by decide)⟩

/-- C6: when the CIDR string has no separator, or its address part of at most
15 characters fails to parse, or (the address part having at most 15
characters) the prefix read by `strtol` is negative or above 32, or the
address part is longer than the buffer, the resolved configuration is the one
of the same device info without the CIDR key: it is computed by the legacy
path from the other keys alone. -/
theorem failed_cidr_falls_back_to_legacy (L : Lib) (info : Einfo)
    (strcfg : CStr) (hc : info.cidr = some strcfg)
    (hfail : strchr strcfg '/' = none
      ∨ ∃ n, strchr strcfg '/' = some n
          ∧ ((n ≤ 15 ∧ (L.ip4addr_aton (strcfg.take n) = none
                ∨ L.strtol (strcfg.drop (n + 1)) < 0
                ∨ 32 < L.strtol (strcfg.drop (n + 1))))
              ∨ 16 < n)) :
    resolve L info = resolve L { info with cidr := none }
    ∧ resolve L info = some (ipv4_legacy L { info with cidr := none }) := by
  have hl : cidr_branch L strcfg = CidrExit.ipv4_legacy := by
    unfold cidr_branch
    rcases hfail with h | ⟨n, hn, h⟩
    · simp [h]
    · simp only [hn]
      rcases h with ⟨hle, h⟩ | hgt
      · have h1 : ¬ n > ARRAY_SIZE_str_ipaddr := by
          simp [ARRAY_SIZE_str_ipaddr]; omega
        have h2 : ¬ ARRAY_SIZE_str_ipaddr ≤ n := by
          simp [ARRAY_SIZE_str_ipaddr]; omega
        simp only [h1, h2, if_false]
        rcases h with h | h | h
        · simp [h]
        · cases L.ip4addr_aton (List.take n strcfg) with
          | none => rfl
          | some v => simp [h]
        · cases L.ip4addr_aton (List.take n strcfg) with
          | none => rfl
          | some v =>
            have : L.strtol (List.drop (n + 1) strcfg) > 32 := h
            simp [this]
      · have h1 : n > ARRAY_SIZE_str_ipaddr := by
          simp [ARRAY_SIZE_str_ipaddr]; omega
        simp [h1]
  have he : resolve L info = some (ipv4_legacy L { info with cidr := none }) := by
    simp only [resolve, hc, hl]
    rfl
  exact ⟨by rw [he]; rfl, he⟩

/-- C6 on three rejected CIDR strings: no separator, a malformed address part
and a prefix of 33; each device resolves from its legacy keys. -/
theorem failed_cidr_falls_back_to_legacy_witness :
    (resolve sample_lib
        { cidr := some "10.0.0.5".toList, addr := some "192.168.0.9".toList,
          mask := some "255.255.0.0".toList }
      = resolve sample_lib
        { ({ cidr := some "10.0.0.5".toList,
             addr := some "192.168.0.9".toList,
             mask := some "255.255.0.0".toList } : Einfo) with cidr := none })
    ∧ (resolve sample_lib
        { cidr := some "10.0.0.x/24".toList, addr := some "192.168.0.9".toList }
      = resolve sample_lib
        { ({ cidr := some "10.0.0.x/24".toList,
             addr := some "192.168.0.9".toList } : Einfo) with cidr := none })
    ∧ (resolve sample_lib
        { cidr := some "10.0.0.5/33".toList, addr := some "192.168.0.9".toList }
      = resolve sample_lib
        { ({ cidr := some "10.0.0.5/33".toList,
             addr := some "192.168.0.9".toList } : Einfo) with cidr := none }) :=
  ⟨(failed_cidr_falls_back_to_legacy sample_lib _ "10.0.0.5".toList rfl
      (Or.inl (by decide))).1,
   (failed_cidr_falls_back_to_legacy sample_lib _ "10.0.0.x/24".toList rfl
      (Or.inr ⟨8, by decide, Or.inl ⟨by decide, Or.inl (by decide)⟩⟩)).1,
   (failed_cidr_falls_back_to_legacy sample_lib _ "10.0.0.5/33".toList rfl
      (Or.inr ⟨8, by decide,
        Or.inl ⟨by decide, Or.inr (Or.inr (by decide))⟩⟩)).1⟩

/-- C8 as the code has it: a malformed address key and a malformed gateway key
resolve like an absent key. A malformed mask key resolves like an absent one
whenever the mask key is not read (the CIDR form resolved, or there is no
valid legacy address); when it is read, after a valid legacy address, the
resolution stops there: the address stays set, the netmask and the gateway
are unset and the gateway key is not read. -/
theorem malformed_key_resolution (L : Lib) (info : Einfo) (s : CStr)
    (hbad : L.ip4addr_aton s = none) :
    (info.addr = some s → resolve L info = resolve L { info with addr := none })
    ∧ (info.gw = some s → resolve L info = resolve L { info with gw := none })
    ∧ (info.mask = some s →
        (∀ c ip4 mask4, info.cidr = some c →
          cidr_branch L c = CidrExit.ipv4_gw ip4 mask4 →
          resolve L info = resolve L { info with mask := none })
        ∧ ((info.addr = none ∨ ∃ a, info.addr = some a ∧ L.ip4addr_aton a = none) →
          resolve L info = resolve L { info with mask := none })
        ∧ (∀ a ip4, info.addr = some a → L.ip4addr_aton a = some ip4 →
          (info.cidr = none
            ∨ ∃ c, info.cidr = some c ∧ cidr_branch L c = CidrExit.ipv4_legacy) →
          resolve L info = some
            { ip4_arg := some ip4, mask4_arg := none, gw4_arg := none,
              hostname_arg := info.hostname })) := by
  refine ⟨?_, ?_, ?_⟩
  · intro ha
    cases hc : info.cidr with
    | none => simp [resolve, hc, ipv4_legacy, no_conf, ha, hbad]
    | some c =>
      cases hb : cidr_branch L c <;>
        simp [resolve, hc, hb, ipv4_legacy, ipv4_gw, no_conf, ha, hbad]
  · intro hg
    have hgw : ∀ a m, ipv4_gw L info a m = ipv4_gw L { info with gw := none } a m := by
      intro a m
      simp [ipv4_gw, no_conf, hg, hbad]
    have hleg : ipv4_legacy L info = ipv4_legacy L { info with gw := none } := by
      unfold ipv4_legacy
      simp only [hgw]
      rfl
    cases hc : info.cidr with
    | none => simp [resolve, hc, hleg]
    | some c =>
      cases hb : cidr_branch L c <;> simp [resolve, hc, hb, hleg, hgw]
  · intro hm
    refine ⟨?_, ?_, ?_⟩
    · intro c ip4 mask4 hc hb
      simp [resolve, hc, hb, ipv4_gw, no_conf]
    · intro ha
      have hleg : ipv4_legacy L info = ipv4_legacy L { info with mask := none } := by
        rcases ha with ha | ⟨a, ha, hab⟩
        · simp [ipv4_legacy, ha, no_conf]
        · simp [ipv4_legacy, ha, hab, no_conf]
      cases hc : info.cidr with
      | none => simp [resolve, hc, hleg]
      | some c =>
        cases hb : cidr_branch L c <;>
          simp [resolve, hc, hb, hleg, ipv4_gw, no_conf]
    · intro a ip4 ha hab hc
      have hleg : ipv4_legacy L info
          = ⟨some ip4, none, none, info.hostname⟩ := by
        simp [ipv4_legacy, ha, hab, hm, hbad, no_conf]
      rcases hc with hc | ⟨c, hc, hb⟩
      · simp [resolve, hc, hleg]
      · simp [resolve, hc, hb, hleg]

/-- C8 on devices with a valid legacy address `10.0.0.5`: a malformed gateway
key resolves like an absent one, and a malformed mask key leaves the address
set and both netmask and gateway unset although the gateway key is valid. -/
theorem malformed_key_resolution_witness :
    sample_lib.ip4addr_aton "10.0.0.x".toList = none
    ∧ (resolve sample_lib
        { addr := some "10.0.0.5".toList, gw := some "10.0.0.x".toList }
      = resolve sample_lib
        { ({ addr := some "10.0.0.5".toList,
             gw := some "10.0.0.x".toList } : Einfo) with gw := none })
    ∧ (resolve sample_lib
        { addr := some "10.0.0.5".toList, mask := some "10.0.0.x".toList,
          gw := some "10.0.0.1".toList }
      = some { ip4_arg := some 83886090, mask4_arg := none, gw4_arg := none,
               hostname_arg := none }) :=
  ⟨by decide,
   (malformed_key_resolution sample_lib
      { addr := some "10.0.0.5".toList, gw := some "10.0.0.x".toList }
      "10.0.0.x".toList (by decide)).2.1 rfl,
   (malformed_key_resolution sample_lib
      { addr := some "10.0.0.5".toList, mask := some "10.0.0.x".toList,
        gw := some "10.0.0.1".toList }
      "10.0.0.x".toList (by decide)).2.2 rfl |>.2.2 "10.0.0.5".toList 83886090
        rfl (by decide) (Or.inl rfl)⟩

/-- C8 fails for the mask key: with address `10.0.0.5` and gateway `10.0.0.1`,
the malformed mask `255.255.255.x` resolves to the address alone (no netmask,
no gateway), whereas the same device with no mask key resolves to the
address, the class-C netmask and the gateway. -/
theorem malformed_mask_is_not_absent_mask :
    sample_lib.ip4addr_aton "255.255.255.x".toList = none
    ∧ resolve sample_lib
        { addr := some "10.0.0.5".toList, mask := some "255.255.255.x".toList,
          gw := some "10.0.0.1".toList }
      = some { ip4_arg := some 83886090, mask4_arg := none, gw4_arg := none,
               hostname_arg := none }
    ∧ resolve sample_lib
        { addr := some "10.0.0.5".toList, mask := none,
          gw := some "10.0.0.1".toList }
      = some { ip4_arg := some 83886090, mask4_arg := some 16777215,
               gw4_arg := some 16777226, hostname_arg := none }
    ∧ resolve sample_lib
        { addr := some "10.0.0.5".toList, mask := some "255.255.255.x".toList,
          gw := some "10.0.0.1".toList }
      ≠ resolve sample_lib
        { addr := some "10.0.0.5".toList, mask := none,
          gw := some "10.0.0.1".toList } := by
  decide

/-- C9: on the CIDR string `192.168.100.1000/24`, whose address part has 16
characters, the length check does not leave for the legacy path, the copy
writes indices 0 to 15 and the terminator store writes index 16 of the
16-byte array `str_ipaddr`. -/
theorem str_ipaddr_terminator_out_of_bounds :
    strchr "192.168.100.1000/24".toList '/' = some 16
    ∧ str_ipaddr_stores "192.168.100.1000/24".toList = List.range 16 ++ [16]
    ∧ ¬ (∀ i ∈ str_ipaddr_stores "192.168.100.1000/24".toList, i ≤ 15)
    ∧ cidr_branch sample_lib "192.168.100.1000/24".toList
        = CidrExit.out_of_bounds := by
  decide

/-- C10 as the code has it: for an address part `A` of at most 15 characters
that parses, the CIDR form `A/S` is accepted exactly when the value `strtol`
returns for `S` lies in [0,32], and the netmask then has that many high-order
bits set; when the value is negative or above 32 the device resolves like one
without the CIDR key. The text of `S` is not otherwise examined. -/
theorem cidr_accepted_iff_strtol_in_range (L : Lib) (info : Einfo)
    (A S : CStr) (ip4 : Nat) (hlen : A.length ≤ 15) (hsep : '/' ∉ A)
    (hA : L.ip4addr_aton A = some ip4) :
    (0 ≤ L.strtol S ∧ L.strtol S ≤ 32 →
      ∃ cfg, resolve L { info with cidr := some (A ++ '/' :: S) } = some cfg
        ∧ cfg.ip4_arg = some ip4
        ∧ cfg.mask4_arg
          = some (L.lwip_htonl (netmask_of_bits (L.strtol S).toNat)))
    ∧ (L.strtol S < 0 ∨ 32 < L.strtol S →
      resolve L { info with cidr := some (A ++ '/' :: S) }
        = resolve L { info with cidr := none }) := by
  constructor
  · rintro ⟨h0, h32⟩
    have hr : ¬ (L.strtol S < 0 ∨ L.strtol S > 32) := by omega
    obtain ⟨p, hp⟩ := Int.eq_ofNat_of_zero_le h0
    have hp32 : p ≤ 32 := by omega
    refine ⟨ipv4_gw L info (some ip4)
      (some (L.lwip_htonl (netmask_of_bits p))),
      ?_, ipv4_gw_ip4_arg _ _ _ _, ?_⟩
    · simp only [resolve, cidr_branch_split L A S hlen hsep, hA, hr, if_false]
      rw [hp, cidr_mask_eq p hp32]
      rfl
    · rw [ipv4_gw_mask4_arg, hp]
      rfl
  · intro h
    have hr : L.strtol S < 0 ∨ L.strtol S > 32 := by omega
    simp only [resolve, cidr_branch_split L A S hlen hsep, hA, hr, if_true]
    rfl

/-- C10 on the address part `10.0.0.5`: the suffix `24` is accepted with
netmask 255.255.255.0 and the suffix `33` falls back to the legacy keys. -/
theorem cidr_accepted_iff_strtol_in_range_witness :
    sample_lib.ip4addr_aton "10.0.0.5".toList = some 83886090
    ∧ (∃ cfg,
        resolve sample_lib
          { ({ addr := some "192.168.0.9".toList } : Einfo) with
            cidr := some ("10.0.0.5".toList ++ '/' :: "24".toList) } = some cfg
        ∧ cfg.ip4_arg = some 83886090
        ∧ cfg.mask4_arg = some (sample_lib.lwip_htonl
            (netmask_of_bits (sample_lib.strtol "24".toList).toNat)))
    ∧ (resolve sample_lib
          { ({ addr := some "192.168.0.9".toList } : Einfo) with
            cidr := some ("10.0.0.5".toList ++ '/' :: "33".toList) }
        = resolve sample_lib
          { ({ addr := some "192.168.0.9".toList } : Einfo) with
            cidr := none }) :=
  ⟨by decide,
   (cidr_accepted_iff_strtol_in_range sample_lib _ "10.0.0.5".toList
      "24".toList 83886090 (by decide) (by decide) (by decide)).1
      (by decide),
   (cidr_accepted_iff_strtol_in_range sample_lib _ "10.0.0.5".toList
      "33".toList 83886090 (by decide) (by decide) (by decide)).2
      (by decide)⟩

/-- C10 fails: the CIDR strings `10.0.0.5/24abc` (digits followed by other
characters), `10.0.0.5/` (empty suffix), `10.0.0.5/x` (no digit) and
`10.0.0.5/+24` (signed) are all accepted, with 24, 0, 0 and 24 mask bits,
and the legacy address key `192.168.0.9` is not used. -/
theorem lax_cidr_suffix_is_accepted :
    resolve sample_lib
        { cidr := some "10.0.0.5/24abc".toList,
          addr := some "192.168.0.9".toList }
      = some { ip4_arg := some 83886090, mask4_arg := some 16777215,
               gw4_arg := none, hostname_arg := none }
    ∧ resolve sample_lib
        { cidr := some "10.0.0.5/".toList, addr := some "192.168.0.9".toList }
      = some { ip4_arg := some 83886090, mask4_arg := some 0,
               gw4_arg := none, hostname_arg := none }
    ∧ resolve sample_lib
        { cidr := some "10.0.0.5/x".toList, addr := some "192.168.0.9".toList }
      = some { ip4_arg := some 83886090, mask4_arg := some 0,
               gw4_arg := none, hostname_arg := none }
    ∧ resolve sample_lib
        { cidr := some "10.0.0.5/+24".toList,
          addr := some "192.168.0.9".toList }
      = some { ip4_arg := some 83886090, mask4_arg := some 16777215,
               gw4_arg := none, hostname_arg := none }
    ∧ resolve sample_lib
        { cidr := none, addr := some "192.168.0.9".toList }
      = some { ip4_arg := some 151038144, mask4_arg := some 16777215,
               gw4_arg := none, hostname_arg := none } := by
  decide

/-! ### Lemmas on the device loop -/

theorem set_default_args_append (xs ys : List Call) :
    set_default_args (xs ++ ys) = set_default_args xs ++ set_default_args ys := by
  induction xs with
  | nil => rfl
  | cons c cs ih => cases c <;> simp [set_default_args, ih]

theorem dns_slots_append (xs ys : List Call) :
    dns_slots (xs ++ ys) = dns_slots xs ++ dns_slots ys := by
  induction xs with
  | nil => rfl
  | cons c cs ih => cases c <;> simp [dns_slots, ih]

theorem dns_calls_append (xs ys : List Call) :
    dns_calls (xs ++ ys) = dns_calls xs ++ dns_calls ys := by
  induction xs with
  | nil => rfl
  | cons c cs ih => cases c <;> simp [dns_calls, ih]

theorem dhcp_start_args_append (xs ys : List Call) :
    dhcp_start_args (xs ++ ys) = dhcp_start_args xs ++ dhcp_start_args ys := by
  induction xs with
  | nil => rfl
  | cons c cs ih => cases c <;> simp [dhcp_start_args, ih]

theorem dns_block_cases (L : Lib) (n : Nat) (strcfg : Option CStr) :
    dns_block L n strcfg = (n, [])
    ∨ (n < L.DNS_MAX_SERVERS ∧ ∃ s dns4, strcfg = some s
        ∧ L.ip4addr_aton s = some dns4
        ∧ dns_block L n strcfg = (n + 1, [Call.dns_setserver n dns4])) := by
  unfold dns_block
  by_cases h : n < L.DNS_MAX_SERVERS
  · cases strcfg with
    | none => simp [h]
    | some s =>
      cases ha : L.ip4addr_aton s with
      | none => simp [h, ha]
      | some a => simp [h, ha]
  · simp [h]

theorem dns_block_slots (L : Lib) (n : Nat) (strcfg : Option CStr) :
    ∃ k, dns_slots (dns_block L n strcfg).2 = List.range' n k
      ∧ (dns_block L n strcfg).1 = n + k
      ∧ (k = 0 ∨ n + k ≤ L.DNS_MAX_SERVERS) := by
  rcases dns_block_cases L n strcfg with h | ⟨hlt, s, a, _, _, h⟩
  · exact ⟨0, by simp [h, dns_slots]⟩
  · refine ⟨1, by simp [h, dns_slots], by simp [h], Or.inr (by omega)⟩

theorem attach_eq (L : Lib) (devid : Nat) (dev : uk_netdev) (s : LoopState)
    (cfg : ResolvedIPv4Config) (nf : Nat)
    (hr : resolve L dev.einfo = some cfg) (ha : dev.addif cfg = some nf) :
    attach L devid dev s = some
      ({ is_first_nf := false,
         nb_dns4 := (dns_block L (dns_block L s.nb_dns4 dev.einfo.dns0).1
            dev.einfo.dns1).1 },
       [Call.uknetdev_addif devid cfg]
        ++ (dns_block L s.nb_dns4 dev.einfo.dns0).2
        ++ (dns_block L (dns_block L s.nb_dns4 dev.einfo.dns0).1
            dev.einfo.dns1).2
        ++ (if s.is_first_nf then [Call.netif_set_default nf] else [])
        ++ [Call.netif_set_up nf]
        ++ (if cfg.ip4_arg.isNone then [Call.dhcp_start nf] else [])) := by
  unfold attach
  simp only [hr, ha]
  cases s.is_first_nf <;> rfl

theorem attach_skip (L : Lib) (devid : Nat) (dev : uk_netdev) (s : LoopState)
    (cfg : ResolvedIPv4Config)
    (hr : resolve L dev.einfo = some cfg) (ha : dev.addif cfg = none) :
    attach L devid dev s = some (s, [Call.uknetdev_addif devid cfg]) := by
  unfold attach
  simp only [hr, ha]

theorem dns_block_no_default (L : Lib) (n : Nat) (strcfg : Option CStr) :
    set_default_args (dns_block L n strcfg).2 = [] := by
  rcases dns_block_cases L n strcfg with h | ⟨_, _, _, _, _, h⟩ <;>
    simp [h, set_default_args]

theorem dns_block_no_dhcp (L : Lib) (n : Nat) (strcfg : Option CStr) :
    dhcp_start_args (dns_block L n strcfg).2 = [] := by
  rcases dns_block_cases L n strcfg with h | ⟨_, _, _, _, _, h⟩ <;>
    simp [h, dhcp_start_args]

theorem attach_default (L : Lib) (devid : Nat) (dev : uk_netdev)
    (s : LoopState) (r : LoopState × List Call)
    (h : attach L devid dev s = some r) :
    set_default_args r.2
        = (if s.is_first_nf then
            ((resolve L dev.einfo).bind dev.addif).toList else [])
      ∧ r.1.is_first_nf
        = (s.is_first_nf && ((resolve L dev.einfo).bind dev.addif).isNone) := by
  cases hr : resolve L dev.einfo with
  | none => simp [attach, hr] at h
  | some cfg =>
    cases ha : dev.addif cfg with
    | none =>
      rw [attach_skip L devid dev s cfg hr ha] at h
      cases h
      simp [set_default_args, ha]
    | some nf =>
      rw [attach_eq L devid dev s cfg nf hr ha] at h
      cases h
      simp only [set_default_args_append, dns_block_no_default,
        Option.bind_some, ha]
      cases s.is_first_nf <;> cases cfg.ip4_arg <;>
        simp [set_default_args, ha]

theorem attach_dns (L : Lib) (devid : Nat) (dev : uk_netdev)
    (s : LoopState) (r : LoopState × List Call)
    (h : attach L devid dev s = some r) :
    ∃ k, dns_slots r.2 = List.range' s.nb_dns4 k
      ∧ r.1.nb_dns4 = s.nb_dns4 + k
      ∧ (k = 0 ∨ s.nb_dns4 + k ≤ L.DNS_MAX_SERVERS) := by
  cases hr : resolve L dev.einfo with
  | none => simp [attach, hr] at h
  | some cfg =>
    cases ha : dev.addif cfg with
    | none =>
      rw [attach_skip L devid dev s cfg hr ha] at h
      cases h
      exact ⟨0, by simp [dns_slots]⟩
    | some nf =>
      rw [attach_eq L devid dev s cfg nf hr ha] at h
      cases h
      obtain ⟨k0, e0, n0, b0⟩ := dns_block_slots L s.nb_dns4 dev.einfo.dns0
      obtain ⟨k1, e1, n1, b1⟩ := dns_block_slots L
        (dns_block L s.nb_dns4 dev.einfo.dns0).1 dev.einfo.dns1
      have hd : dns_slots (if s.is_first_nf then [Call.netif_set_default nf]
          else []) = [] := by cases s.is_first_nf <;> rfl
      have hh : dns_slots (if cfg.ip4_arg.isNone then [Call.dhcp_start nf]
          else []) = [] := by cases cfg.ip4_arg <;> rfl
      refine ⟨k0 + k1, ?_, ?_, ?_⟩
      · simp only [dns_slots_append, e0, e1, hd, hh]
        rw [n0]
        simp only [dns_slots, List.nil_append, List.append_nil,
          List.range'_append_1]
        rw [Nat.add_comm k1 k0]
      · show (dns_block L (dns_block L s.nb_dns4 dev.einfo.dns0).1
            dev.einfo.dns1).1 = s.nb_dns4 + (k0 + k1)
        rw [n1, n0]; omega
      · rw [n0] at b1
        omega

theorem attach_defined (L : Lib) (devid : Nat) (dev : uk_netdev)
    (s : LoopState) (cfg : ResolvedIPv4Config)
    (hr : resolve L dev.einfo = some cfg) :
    ∃ r, attach L devid dev s = some r := by
  cases ha : dev.addif cfg with
  | none => exact ⟨_, attach_skip L devid dev s cfg hr ha⟩
  | some nf => exact ⟨_, attach_eq L devid dev s cfg nf hr ha⟩

theorem successfully_attached_eq (L : Lib) (dev : uk_netdev)
    (h : dev.state = uk_netdev_state.UK_NETDEV_UNCONFIGURED
      ∨ (dev.state = uk_netdev_state.UK_NETDEV_UNPROBED ∧ 0 ≤ dev.probe_ret)) :
    successfully_attached L (some dev)
      = (resolve L dev.einfo).bind dev.addif := by
  unfold successfully_attached
  simp only [h, if_true]
  cases resolve L dev.einfo <;> rfl

/-- What one iteration does, by the case of the device: skipped, probe
failed, or handed to `attach` (after the probe call, when one is made). -/
theorem loop_body_cases (L : Lib) (devid : Nat) (slot : Option uk_netdev)
    (s : LoopState) :
    (successfully_attached L slot = none
      ∧ (loop_body L devid slot s = some (s, [])
        ∨ loop_body L devid slot s = some (s, [Call.uk_netdev_probe devid])))
    ∨ ∃ dev, slot = some dev
        ∧ successfully_attached L slot = (resolve L dev.einfo).bind dev.addif
        ∧ (loop_body L devid slot s = attach L devid dev s
          ∨ loop_body L devid slot s = (attach L devid dev s).map
              (fun r => (r.1, Call.uk_netdev_probe devid :: r.2))) := by
  cases slot with
  | none => exact Or.inl ⟨rfl, Or.inl rfl⟩
  | some dev =>
    by_cases h1 : dev.state = uk_netdev_state.UK_NETDEV_UNCONFIGURED
    · refine Or.inr ⟨dev, rfl, successfully_attached_eq L dev (Or.inl h1),
        Or.inl ?_⟩
      simp [loop_body, h1]
    · by_cases h2 : dev.state = uk_netdev_state.UK_NETDEV_UNPROBED
      · by_cases h3 : dev.probe_ret < 0
        · refine Or.inl ⟨?_, Or.inr ?_⟩
          · have : ¬ (0 ≤ dev.probe_ret) := by omega
            simp [successfully_attached, h2, this]
          · simp [loop_body, h2, h3]
        · refine Or.inr ⟨dev, rfl,
            successfully_attached_eq L dev (Or.inr ⟨h2, by omega⟩), Or.inr ?_⟩
          simp [loop_body, h2, h3]
      · refine Or.inl ⟨?_, Or.inl ?_⟩
        · simp [successfully_attached, h1, h2]
        · simp [loop_body, h1, h2]

theorem loop_body_defined (L : Lib) (devid : Nat) (slot : Option uk_netdev)
    (s : LoopState)
    (h : ∀ dev, slot = some dev → ∀ strcfg, dev.einfo.cidr = some strcfg →
      strchr strcfg '/' ≠ some ARRAY_SIZE_str_ipaddr) :
    ∃ r, loop_body L devid slot s = some r := by
  rcases loop_body_cases L devid slot s with ⟨_, h1 | h1⟩ | ⟨dev, hd, _, h1 | h1⟩
  · exact ⟨_, h1⟩
  · exact ⟨_, h1⟩
  · obtain ⟨cfg, hc⟩ := resolve_defined L dev.einfo (h dev hd)
    obtain ⟨r, hr⟩ := attach_defined L devid dev s cfg hc
    exact ⟨r, by rw [h1, hr]⟩
  · obtain ⟨cfg, hc⟩ := resolve_defined L dev.einfo (h dev hd)
    obtain ⟨r, hr⟩ := attach_defined L devid dev s cfg hc
    exact ⟨_, by rw [h1, hr]; rfl⟩

theorem loop_body_default (L : Lib) (devid : Nat) (slot : Option uk_netdev)
    (s : LoopState) (r : LoopState × List Call)
    (h : loop_body L devid slot s = some r) :
    set_default_args r.2
        = (if s.is_first_nf then (successfully_attached L slot).toList else [])
      ∧ r.1.is_first_nf
        = (s.is_first_nf && (successfully_attached L slot).isNone) := by
  rcases loop_body_cases L devid slot s with ⟨h0, h1 | h1⟩ | ⟨dev, _, h0, h1 | h1⟩
  · rw [h1] at h; cases h
    simp [h0, set_default_args]
  · rw [h1] at h; cases h
    simp [h0, set_default_args]
  · rw [h1] at h
    rw [h0]
    exact attach_default L devid dev s r h
  · rw [h1] at h
    rw [h0]
    cases ha : attach L devid dev s with
    | none => simp [ha] at h
    | some r0 =>
      simp only [ha, Option.map_some'] at h
      cases h
      have := attach_default L devid dev s r0 ha
      simpa [set_default_args] using this

theorem loop_body_dns (L : Lib) (devid : Nat) (slot : Option uk_netdev)
    (s : LoopState) (r : LoopState × List Call)
    (h : loop_body L devid slot s = some r) :
    ∃ k, dns_slots r.2 = List.range' s.nb_dns4 k
      ∧ r.1.nb_dns4 = s.nb_dns4 + k
      ∧ (k = 0 ∨ s.nb_dns4 + k ≤ L.DNS_MAX_SERVERS) := by
  rcases loop_body_cases L devid slot s with ⟨_, h1 | h1⟩ | ⟨dev, _, _, h1 | h1⟩
  · rw [h1] at h; cases h
    exact ⟨0, by simp [dns_slots]⟩
  · rw [h1] at h; cases h
    exact ⟨0, by simp [dns_slots]⟩
  · rw [h1] at h
    exact attach_dns L devid dev s r h
  · rw [h1] at h
    cases ha : attach L devid dev s with
    | none => simp [ha] at h
    | some r0 =>
      simp only [ha, Option.map_some'] at h
      cases h
      have := attach_dns L devid dev s r0 ha
      simpa [dns_slots] using this

theorem in_bounds_cons (slot : Option uk_netdev)
    (rest : List (Option uk_netdev)) (h : in_bounds (slot :: rest)) :
    (∀ dev, slot = some dev → ∀ strcfg, dev.einfo.cidr = some strcfg →
      strchr strcfg '/' ≠ some ARRAY_SIZE_str_ipaddr) ∧ in_bounds rest := by
  constructor
  · intro dev hd
    exact h dev (by simp [hd])
  · intro dev hd
    exact h dev (by simp [hd])

theorem device_loop_defined (L : Lib) (devs : List (Option uk_netdev))
    (h : in_bounds devs) (devid : Nat) (s : LoopState) :
    ∃ calls, device_loop L devid devs s = some calls := by
  induction devs generalizing devid s with
  | nil => exact ⟨[], rfl⟩
  | cons slot rest ih =>
    obtain ⟨hs, hr⟩ := in_bounds_cons slot rest h
    obtain ⟨r, hb⟩ := loop_body_defined L devid slot s hs
    obtain ⟨cs, hcs⟩ := ih hr (devid + 1) r.1
    exact ⟨r.2 ++ cs, by simp [device_loop, hb, hcs]⟩

theorem device_loop_default (L : Lib) (devs : List (Option uk_netdev))
    (devid : Nat) (s : LoopState) (calls : List Call)
    (h : device_loop L devid devs s = some calls) :
    set_default_args calls
      = (if s.is_first_nf then (first_attached L devs).toList else []) := by
  induction devs generalizing devid s calls with
  | nil =>
    simp only [device_loop, Option.some.injEq] at h
    subst h
    cases s.is_first_nf <;> rfl
  | cons slot rest ih =>
    unfold device_loop at h
    cases hb : loop_body L devid slot s with
    | none => simp [hb] at h
    | some r =>
      simp only [hb] at h
      cases hl : device_loop L (devid + 1) rest r.1 with
      | none => simp [hl] at h
      | some cs =>
        simp only [hl, Option.map_some', Option.some.injEq] at h
        subst h
        obtain ⟨e1, e2⟩ := loop_body_default L devid slot s r hb
        rw [set_default_args_append, e1, ih (devid + 1) r.1 cs hl, e2]
        cases hf : s.is_first_nf <;>
          cases hs : successfully_attached L slot <;>
          simp [first_attached, hs]

theorem device_loop_dns (L : Lib) (devs : List (Option uk_netdev))
    (devid : Nat) (s : LoopState) (calls : List Call)
    (h : device_loop L devid devs s = some calls) :
    ∃ k, dns_slots calls = List.range' s.nb_dns4 k
      ∧ (k = 0 ∨ s.nb_dns4 + k ≤ L.DNS_MAX_SERVERS) := by
  induction devs generalizing devid s calls with
  | nil =>
    simp only [device_loop, Option.some.injEq] at h
    subst h
    exact ⟨0, by simp [dns_slots]⟩
  | cons slot rest ih =>
    unfold device_loop at h
    cases hb : loop_body L devid slot s with
    | none => simp [hb] at h
    | some r =>
      simp only [hb] at h
      cases hl : device_loop L (devid + 1) rest r.1 with
      | none => simp [hl] at h
      | some cs =>
        simp only [hl, Option.map_some', Option.some.injEq] at h
        subst h
        obtain ⟨k0, e0, n0, b0⟩ := loop_body_dns L devid slot s r hb
        obtain ⟨k1, e1, b1⟩ := ih (devid + 1) r.1 cs hl
        refine ⟨k0 + k1, ?_, ?_⟩
        · rw [dns_slots_append, e0, e1, n0, List.range'_append_1,
            Nat.add_comm k1 k0]
        · rw [n0] at b1
          omega

theorem dns_block_valid (L : Lib) (n : Nat) (s : CStr) (a : Nat)
    (ha : L.ip4addr_aton s = some a) :
    dns_block L n (some s)
      = if n < L.DNS_MAX_SERVERS then (n + 1, [Call.dns_setserver n a])
        else (n, []) := by
  simp [dns_block, ha]

theorem dns_block_invalid (L : Lib) (n : Nat) (s : CStr)
    (ha : L.ip4addr_aton s = none) :
    dns_block L n (some s) = (n, []) := by
  simp [dns_block, ha]

theorem mem_dhcp_start_args (cs : List Call) (nf : Nat) :
    nf ∈ dhcp_start_args cs ↔ Call.dhcp_start nf ∈ cs := by
  induction cs with
  | nil => simp [dhcp_start_args]
  | cons c cs ih => cases c <;> simp [dhcp_start_args, ih]

/-- The iteration of a device that passes the state and probe checks and is
registered: the calls of `attach`, after the probe call when one is made. -/
theorem loop_body_attached (L : Lib) (devid : Nat) (dev : uk_netdev)
    (s : LoopState) (cfg : ResolvedIPv4Config) (nf : Nat)
    (hstate : dev.state = uk_netdev_state.UK_NETDEV_UNCONFIGURED
      ∨ (dev.state = uk_netdev_state.UK_NETDEV_UNPROBED ∧ 0 ≤ dev.probe_ret))
    (hr : resolve L dev.einfo = some cfg) (ha : dev.addif cfg = some nf) :
    ∃ pre, (pre = [] ∨ pre = [Call.uk_netdev_probe devid])
      ∧ loop_body L devid (some dev) s = some
        ({ is_first_nf := false,
           nb_dns4 := (dns_block L (dns_block L s.nb_dns4 dev.einfo.dns0).1
              dev.einfo.dns1).1 },
         pre ++ ([Call.uknetdev_addif devid cfg]
          ++ (dns_block L s.nb_dns4 dev.einfo.dns0).2
          ++ (dns_block L (dns_block L s.nb_dns4 dev.einfo.dns0).1
              dev.einfo.dns1).2
          ++ (if s.is_first_nf then [Call.netif_set_default nf] else [])
          ++ [Call.netif_set_up nf]
          ++ (if cfg.ip4_arg.isNone then [Call.dhcp_start nf] else []))) := by
  rcases hstate with h1 | ⟨h2, h3⟩
  · refine ⟨[], Or.inl rfl, ?_⟩
    simp only [loop_body, h1]
    simpa using attach_eq L devid dev s cfg nf hr ha
  · refine ⟨[Call.uk_netdev_probe devid], Or.inr rfl, ?_⟩
    have h4 : ¬ dev.probe_ret < 0 := by omega
    simp only [loop_body, h2, h4, attach_eq L devid dev s cfg nf hr ha]
    simp

/-! ### The claims on the device loop -/

/-- C2: on a device table whose CIDR keys stay inside `str_ipaddr`, one run
of `liblwip_init` completes and calls `netif_set_default` exactly once, on the
interface of the first successfully attached device in enumeration order,
when there is such a device, and never when there is none. -/
theorem default_interface_is_first_attached (L : Lib)
    (devs : List (Option uk_netdev)) (hb : in_bounds devs) :
    ∃ calls, liblwip_init L devs = some calls
      ∧ set_default_args calls = (first_attached L devs).toList
      ∧ (∀ nf, first_attached L devs = some nf → set_default_args calls = [nf])
      ∧ (first_attached L devs = none → set_default_args calls = []) := by
  obtain ⟨calls, hc⟩ := device_loop_defined L devs hb 0
    { is_first_nf := true, nb_dns4 := 0 }
  have hd := device_loop_default L devs 0 _ calls hc
  simp only [if_true] at hd
  refine ⟨calls, hc, hd, ?_, ?_⟩
  · intro nf hnf
    rw [hd, hnf]; rfl
  · intro hn
    rw [hd, hn]; rfl

/-- The table of three devices of the end-to-end example stays in bounds. -/
theorem sample_table_in_bounds :
    in_bounds [some sample_configured, some sample_probe_fails,
      some sample_static] := by
  intro dev hd strcfg hc
  simp only [List.mem_cons, Option.some.injEq, List.mem_singleton,
    List.not_mem_nil, or_false] at hd
  rcases hd with rfl | rfl | rfl
  · simp [sample_configured] at hc
  · simp [sample_probe_fails] at hc
  · simp only [sample_static, Option.some.injEq] at hc
    subst hc
    decide

/-- C2 on three devices: device 0 is Configured and skipped, device 1 fails
probing, device 2 attaches as interface 3 and is the default. -/
theorem default_interface_is_first_attached_witness :
    first_attached sample_lib
        [some sample_configured, some sample_probe_fails, some sample_static]
      = some 3
    ∧ ∃ calls,
      liblwip_init sample_lib
        [some sample_configured, some sample_probe_fails, some sample_static]
        = some calls
      ∧ set_default_args calls = [3] :=
  ⟨by decide,
   (default_interface_is_first_attached sample_lib _
      sample_table_in_bounds).elim
      (fun calls h => ⟨calls, h.1, h.2.2.1 3 (by decide)⟩)⟩

/-- C3: for a device that passes the state and probe checks and is registered
as interface `nf` with the resolved arguments `cfg`, the iteration calls
`dhcp_start` exactly when the resolved address is unset, then once and on
`nf`; with a resolved address, whatever the netmask and gateway, it makes no
`dhcp_start` call. -/
theorem dhcp_start_iff_address_unset (L : Lib) (devid : Nat) (dev : uk_netdev)
    (s : LoopState) (cfg : ResolvedIPv4Config) (nf : Nat)
    (hstate : dev.state = uk_netdev_state.UK_NETDEV_UNCONFIGURED
      ∨ (dev.state = uk_netdev_state.UK_NETDEV_UNPROBED ∧ 0 ≤ dev.probe_ret))
    (hr : resolve L dev.einfo = some cfg) (ha : dev.addif cfg = some nf) :
    ∃ r, loop_body L devid (some dev) s = some r
      ∧ (Call.dhcp_start nf ∈ r.2 ↔ cfg.ip4_arg = none)
      ∧ dhcp_start_args r.2 = (if cfg.ip4_arg = none then [nf] else []) := by
  obtain ⟨pre, hpre, hl⟩ := loop_body_attached L devid dev s cfg nf hstate hr ha
  have hargs : dhcp_start_args (pre ++ ([Call.uknetdev_addif devid cfg]
      ++ (dns_block L s.nb_dns4 dev.einfo.dns0).2
      ++ (dns_block L (dns_block L s.nb_dns4 dev.einfo.dns0).1
          dev.einfo.dns1).2
      ++ (if s.is_first_nf then [Call.netif_set_default nf] else [])
      ++ [Call.netif_set_up nf]
      ++ (if cfg.ip4_arg.isNone then [Call.dhcp_start nf] else [])))
      = (if cfg.ip4_arg = none then [nf] else []) := by
    have hp : dhcp_start_args pre = [] := by
      rcases hpre with rfl | rfl <;> rfl
    simp only [dhcp_start_args_append, dns_block_no_dhcp, hp]
    cases s.is_first_nf <;> cases cfg.ip4_arg <;> simp [dhcp_start_args]
  refine ⟨_, hl, ?_, hargs⟩
  rw [← mem_dhcp_start_args, hargs]
  cases cfg.ip4_arg <;> simp

/-- C3 on two devices: the one without an address key starts DHCP on its
interface 4, the one with a CIDR address makes no `dhcp_start` call. -/
theorem dhcp_start_iff_address_unset_witness :
    (∃ r, loop_body sample_lib 0 (some sample_dhcp)
          { is_first_nf := true, nb_dns4 := 0 } = some r
      ∧ (Call.dhcp_start 4 ∈ r.2 ↔ (none : Option Nat) = none)
      ∧ dhcp_start_args r.2 = [4])
    ∧ (∃ r, loop_body sample_lib 2 (some sample_static)
          { is_first_nf := true, nb_dns4 := 0 } = some r
      ∧ (Call.dhcp_start 3 ∈ r.2 ↔ some 167880896 = none)
      ∧ dhcp_start_args r.2 = []) :=
  ⟨dhcp_start_iff_address_unset sample_lib 0 sample_dhcp _
      ⟨none, none, none, some "unikraft".toList⟩ 4 (Or.inl rfl)
      (by decide) rfl,
   dhcp_start_iff_address_unset sample_lib 2 sample_static _
      ⟨some 167880896, some 16777215, some 16885952, none⟩ 3
      (Or.inr ⟨rfl, by decide⟩) (by decide) rfl⟩

theorem dns_calls_attached (devid : Nat) (cfg : ResolvedIPv4Config)
    (nf : Nat) (first : Bool) (pre p q : List Call)
    (hpre : pre = [] ∨ pre = [Call.uk_netdev_probe devid]) :
    dns_calls (pre ++ ([Call.uknetdev_addif devid cfg] ++ p ++ q
      ++ (if first then [Call.netif_set_default nf] else [])
      ++ [Call.netif_set_up nf]
      ++ (if cfg.ip4_arg.isNone then [Call.dhcp_start nf] else [])))
      = dns_calls p ++ dns_calls q := by
  have hp : dns_calls pre = [] := by
    rcases hpre with rfl | rfl <;> rfl
  simp only [dns_calls_append, hp]
  cases first <;> cases cfg.ip4_arg <;> simp [dns_calls]

/-- C4: on a device table whose CIDR keys stay inside `str_ipaddr`, one run
of `liblwip_init` completes and the slot indices it passes to `dns_setserver`
are, in call order, `0, 1, …, k-1` for some `k ≤ DNS_MAX_SERVERS`. Within one
registered device with both DNS keys valid, the primary server is set first:
slots `n` and `n+1` when two are free from the running index `n`, the primary
alone when one is free, nothing when the table is full. With capacity 2, a
run over a single such device makes exactly the calls slot 0 with the `DNS0`
address, then slot 1 with the `DNS1` address. -/
theorem dns_slots_filled_in_order (L : Lib) (devs : List (Option uk_netdev))
    (hb : in_bounds devs) :
    (∃ calls k, liblwip_init L devs = some calls
      ∧ k ≤ L.DNS_MAX_SERVERS ∧ dns_slots calls = List.range k)
    ∧ (∀ devid dev s cfg nf s0 s1 a0 a1,
        (dev.state = uk_netdev_state.UK_NETDEV_UNCONFIGURED
          ∨ (dev.state = uk_netdev_state.UK_NETDEV_UNPROBED
            ∧ 0 ≤ dev.probe_ret)) →
        resolve L dev.einfo = some cfg → dev.addif cfg = some nf →
        dev.einfo.dns0 = some s0 → L.ip4addr_aton s0 = some a0 →
        dev.einfo.dns1 = some s1 → L.ip4addr_aton s1 = some a1 →
        ∃ r, loop_body L devid (some dev) s = some r
          ∧ dns_calls r.2 =
            (if s.nb_dns4 + 1 < L.DNS_MAX_SERVERS then
              [(s.nb_dns4, a0), (s.nb_dns4 + 1, a1)]
            else if s.nb_dns4 < L.DNS_MAX_SERVERS then [(s.nb_dns4, a0)]
            else []))
    ∧ (∀ dev cfg nf s0 s1 a0 a1, L.DNS_MAX_SERVERS = 2 →
        (dev.state = uk_netdev_state.UK_NETDEV_UNCONFIGURED
          ∨ (dev.state = uk_netdev_state.UK_NETDEV_UNPROBED
            ∧ 0 ≤ dev.probe_ret)) →
        resolve L dev.einfo = some cfg → dev.addif cfg = some nf →
        dev.einfo.dns0 = some s0 → L.ip4addr_aton s0 = some a0 →
        dev.einfo.dns1 = some s1 → L.ip4addr_aton s1 = some a1 →
        ∃ calls, liblwip_init L [some dev] = some calls
          ∧ dns_calls calls = [(0, a0), (1, a1)]) := by
  have hbody : ∀ devid dev s cfg nf s0 s1 a0 a1,
      (dev.state = uk_netdev_state.UK_NETDEV_UNCONFIGURED
        ∨ (dev.state = uk_netdev_state.UK_NETDEV_UNPROBED
          ∧ 0 ≤ dev.probe_ret)) →
      resolve L dev.einfo = some cfg → dev.addif cfg = some nf →
      dev.einfo.dns0 = some s0 → L.ip4addr_aton s0 = some a0 →
      dev.einfo.dns1 = some s1 → L.ip4addr_aton s1 = some a1 →
      ∃ r, loop_body L devid (some dev) s = some r
        ∧ dns_calls r.2 =
          (if s.nb_dns4 + 1 < L.DNS_MAX_SERVERS then
            [(s.nb_dns4, a0), (s.nb_dns4 + 1, a1)]
          else if s.nb_dns4 < L.DNS_MAX_SERVERS then [(s.nb_dns4, a0)]
          else []) := by
    intro devid dev s cfg nf s0 s1 a0 a1 hstate hr ha h0 ha0 h1 ha1
    obtain ⟨pre, hpre, hl⟩ :=
      loop_body_attached L devid dev s cfg nf hstate hr ha
    refine ⟨_, hl, ?_⟩
    rw [dns_calls_attached devid cfg nf s.is_first_nf pre _ _ hpre, h0, h1,
      dns_block_valid L s.nb_dns4 s0 a0 ha0]
    by_cases c1 : s.nb_dns4 + 1 < L.DNS_MAX_SERVERS
    · have c0 : s.nb_dns4 < L.DNS_MAX_SERVERS := by omega
      simp [c0, c1, dns_block_valid L (s.nb_dns4 + 1) s1 a1 ha1, dns_calls]
    · by_cases c0 : s.nb_dns4 < L.DNS_MAX_SERVERS
      · simp [c0, c1, dns_block_valid L (s.nb_dns4 + 1) s1 a1 ha1, dns_calls]
      · simp [c0, c1, dns_block_valid L s.nb_dns4 s1 a1 ha1, dns_calls]
  refine ⟨?_, hbody, ?_⟩
  · obtain ⟨calls, hc⟩ := device_loop_defined L devs hb 0
      { is_first_nf := true, nb_dns4 := 0 }
    obtain ⟨k, hk, hle⟩ := device_loop_dns L devs 0 _ calls hc
    refine ⟨calls, k, hc, ?_, ?_⟩
    · rcases hle with h | h
      · omega
      · simpa using h
    · rw [hk, List.range_eq_range']
  · intro dev cfg nf s0 s1 a0 a1 hmax hstate hr ha h0 ha0 h1 ha1
    obtain ⟨r, hl, hd⟩ := hbody 0 dev { is_first_nf := true, nb_dns4 := 0 }
      cfg nf s0 s1 a0 a1 hstate hr ha h0 ha0 h1 ha1
    refine ⟨r.2, ?_, ?_⟩
    · simp [liblwip_init, device_loop, hl]
    · rw [hd]
      simp [hmax]

/-- C4 on the table of the end-to-end example: the run fills slots 0 and 1,
and the one attached device sets `8.8.8.8` in slot 0, then `8.8.4.4` in
slot 1. -/
theorem dns_slots_filled_in_order_witness :
    (∃ calls k,
      liblwip_init sample_lib
        [some sample_configured, some sample_probe_fails, some sample_static]
        = some calls
      ∧ k ≤ sample_lib.DNS_MAX_SERVERS ∧ dns_slots calls = List.range k)
    ∧ ∃ calls, liblwip_init sample_lib [some sample_static] = some calls
      ∧ dns_calls calls = [(0, 134744072), (1, 67373064)] :=
  ⟨(dns_slots_filled_in_order sample_lib _ sample_table_in_bounds).1,
   (dns_slots_filled_in_order sample_lib _ sample_table_in_bounds).2.2
      sample_static ⟨some 167880896, some 16777215, some 16885952, none⟩ 3
      "8.8.8.8".toList "8.8.4.4".toList 134744072 67373064 rfl
      (Or.inr ⟨rfl, by decide⟩) (by decide) rfl rfl (by decide) rfl
      (by decide)⟩

/-- C5 as the code has it: with capacity 2 and no slot filled yet, a
registered device whose `DNS0` string is malformed and whose `DNS1` string is
valid fills exactly one slot, with the `DNS1` address, and it is slot 0, the
first free one; the running index is 1 afterwards. -/
theorem malformed_primary_dns_secondary_takes_slot_zero (L : Lib)
    (devid : Nat) (dev : uk_netdev) (s : LoopState)
    (cfg : ResolvedIPv4Config) (nf : Nat) (s0 s1 : CStr) (a1 : Nat)
    (hmax : L.DNS_MAX_SERVERS = 2) (hfree : s.nb_dns4 = 0)
    (hstate : dev.state = uk_netdev_state.UK_NETDEV_UNCONFIGURED
      ∨ (dev.state = uk_netdev_state.UK_NETDEV_UNPROBED ∧ 0 ≤ dev.probe_ret))
    (hr : resolve L dev.einfo = some cfg) (ha : dev.addif cfg = some nf)
    (h0 : dev.einfo.dns0 = some s0) (hbad : L.ip4addr_aton s0 = none)
    (h1 : dev.einfo.dns1 = some s1) (hok : L.ip4addr_aton s1 = some a1) :
    ∃ r, loop_body L devid (some dev) s = some r
      ∧ dns_calls r.2 = [(0, a1)] ∧ r.1.nb_dns4 = 1 := by
  obtain ⟨pre, hpre, hl⟩ := loop_body_attached L devid dev s cfg nf hstate hr ha
  refine ⟨_, hl, ?_, ?_⟩
  · rw [dns_calls_attached devid cfg nf s.is_first_nf pre _ _ hpre, h0, h1,
      dns_block_invalid L s.nb_dns4 s0 hbad,
      dns_block_valid L s.nb_dns4 s1 a1 hok]
    simp [hmax, hfree, dns_calls]
  · show (dns_block L (dns_block L s.nb_dns4 dev.einfo.dns0).1
        dev.einfo.dns1).1 = 1
    rw [h0, h1, dns_block_invalid L s.nb_dns4 s0 hbad,
      dns_block_valid L s.nb_dns4 s1 a1 hok]
    simp [hmax, hfree]

/-- C5 on a device with `DNS0 = 8.8.8.x` and `DNS1 = 8.8.4.4`. -/
theorem malformed_primary_dns_secondary_takes_slot_zero_witness :
    sample_lib.ip4addr_aton "8.8.8.x".toList = none
    ∧ sample_lib.ip4addr_aton "8.8.4.4".toList = some 67373064
    ∧ ∃ r, loop_body sample_lib 0 (some sample_dhcp)
          { is_first_nf := true, nb_dns4 := 0 } = some r
      ∧ dns_calls r.2 = [(0, 67373064)] ∧ r.1.nb_dns4 = 1 :=
  ⟨by decide, by decide,
   malformed_primary_dns_secondary_takes_slot_zero sample_lib 0 sample_dhcp _
      ⟨none, none, none, some "unikraft".toList⟩ 4 "8.8.8.x".toList
      "8.8.4.4".toList 67373064 rfl rfl (Or.inl rfl) (by decide) rfl rfl
      (by decide) rfl (by decide)⟩

/-- C5 fails: with capacity 2, on a single registered device with the
malformed `DNS0 = 8.8.8.x` and the valid `DNS1 = 8.8.4.4`, the run makes one
`dns_setserver` call, and it is for slot 0, not slot 1. -/
theorem secondary_dns_is_compacted_into_slot_zero :
    sample_lib.DNS_MAX_SERVERS = 2
    ∧ sample_lib.ip4addr_aton "8.8.8.x".toList = none
    ∧ (liblwip_init sample_lib [some sample_dhcp]).map dns_calls
        = some [(0, 67373064)]
    ∧ (liblwip_init sample_lib [some sample_dhcp]).map dns_calls
        ≠ some [(1, 67373064)] := by
  decide

/-- C7: a device info with no CIDR key whose address key is absent or
malformed resolves to no address, no netmask and no gateway, whatever the
mask and gateway keys hold, with the hostname taken from its key; and a
device with this info that passes the state and probe checks is still handed
to `uknetdev_addif`, with exactly these arguments. -/
theorem no_legacy_address_no_static_config (L : Lib) (info : Einfo)
    (hc : info.cidr = none)
    (haddr : info.addr = none
      ∨ ∃ a, info.addr = some a ∧ L.ip4addr_aton a = none) :
    resolve L info = some
        { ip4_arg := none, mask4_arg := none, gw4_arg := none,
          hostname_arg := info.hostname }
    ∧ ∀ devid dev s, dev.einfo = info →
        (dev.state = uk_netdev_state.UK_NETDEV_UNCONFIGURED
          ∨ (dev.state = uk_netdev_state.UK_NETDEV_UNPROBED
            ∧ 0 ≤ dev.probe_ret)) →
        ∃ r, loop_body L devid (some dev) s = some r
          ∧ Call.uknetdev_addif devid
              { ip4_arg := none, mask4_arg := none, gw4_arg := none,
                hostname_arg := info.hostname } ∈ r.2 := by
  have hres : resolve L info = some
      { ip4_arg := none, mask4_arg := none, gw4_arg := none,
        hostname_arg := info.hostname } := by
    rcases haddr with h | ⟨a, h, hbad⟩
    · simp [resolve, hc, ipv4_legacy, h, no_conf]
    · simp [resolve, hc, ipv4_legacy, h, hbad, no_conf]
  refine ⟨hres, ?_⟩
  intro devid dev s hinfo hstate
  subst hinfo
  cases ha : dev.addif
      { ip4_arg := none, mask4_arg := none, gw4_arg := none,
        hostname_arg := dev.einfo.hostname } with
  | some nf =>
    obtain ⟨pre, hpre, hl⟩ := loop_body_attached L devid dev s _ nf hstate hres ha
    refine ⟨_, hl, ?_⟩
    simp
  | none =>
    have hsk := attach_skip L devid dev s _ hres ha
    rcases hstate with h1 | ⟨h2, h3⟩
    · refine ⟨(s, [Call.uknetdev_addif devid
          ⟨none, none, none, dev.einfo.hostname⟩]), ?_, ?_⟩
      · simp only [loop_body, h1]
        simpa using hsk
      · simp
    · have h4 : ¬ dev.probe_ret < 0 := by omega
      refine ⟨(s, [Call.uk_netdev_probe devid, Call.uknetdev_addif devid
          ⟨none, none, none, dev.einfo.hostname⟩]), ?_, ?_⟩
      · simp only [loop_body, h2, h4, hsk]
        simp
      · simp

/-- C7 on a device with no address key but valid mask and gateway keys and a
hostname: only the hostname is resolved, and the device is registered. -/
theorem no_legacy_address_no_static_config_witness :
    resolve sample_lib sample_dhcp.einfo = some
        { ip4_arg := none, mask4_arg := none, gw4_arg := none,
          hostname_arg := some "unikraft".toList }
    ∧ ∃ r, loop_body sample_lib 0 (some sample_dhcp)
          { is_first_nf := true, nb_dns4 := 0 } = some r
      ∧ Call.uknetdev_addif 0
          { ip4_arg := none, mask4_arg := none, gw4_arg := none,
            hostname_arg := some "unikraft".toList } ∈ r.2 :=
  ⟨(no_legacy_address_no_static_config sample_lib sample_dhcp.einfo rfl
      (Or.inl rfl)).1,
   (no_legacy_address_no_static_config sample_lib sample_dhcp.einfo rfl
      (Or.inl rfl)).2 0 sample_dhcp _ rfl (Or.inl rfl)⟩

end LwipInit
